import Mathlib

/-!
Verification model of the Agent Session Orchestration subsystem of cognal:
the AgentManager (src/agents/manager.ts), the shared CLI process protocol
engine BaseCliAgentAdapter (src/agents/agentAdapter.ts), and the
session-ref text-extraction heuristics.  Definitions are shallow embeddings
of the TypeScript source: pure logic becomes Lean functions, the stateful
Manager becomes explicit state passing over a DbState/MState pair together
with an emitted trace of externally visible events, and the timer-racing
send/stop/start control flow becomes explicit event-driven state machines.
The persistence collaborator is the sqlite-backed Db class of src/core,
embedded as explicit state over its bindings and agent_runtime tables.
-/

/-- The closed set of provider variants (src/types.ts: AgentType). -/
inductive AgentType
  | claude
  | codex
deriving DecidableEq

/-- The string name of a provider, as used in template strings and keys. -/
def agentName : AgentType → String
  | .claude => "claude"
  | .codex => "codex"

/-- src/core/router.ts: otherAgent returns the alternate provider. -/
def otherAgent : AgentType → AgentType
  | .claude => .codex
  | .codex => .claude

/-- Persisted session binding row (src/types.ts: SessionBinding); the
updatedAt timestamp column is irrelevant to every claim and omitted. -/
structure SessionBinding where
  userId : String
  activeAgent : AgentType
  claudeSessionRef : Option String
  codexSessionRef : Option String
deriving DecidableEq

/-- Result of one send (src/types.ts: AgentOutput). -/
structure AgentOutput where
  text : String
  sessionRef : Option String
deriving DecidableEq

/-- Transient per-user runtime (src/agents/agentAdapter.ts: RunningAgent).
The child-process handle is flattened to the fields the orchestration code
reads: pid, exitCode and the killed flag. -/
structure RunningAgent where
  agent : AgentType
  userId : String
  pid : Option Int
  exitCode : Option Int
  killed : Bool
  sessionRef : Option String
  outputBuffer : String
deriving DecidableEq

/-! ## Session-ref extraction (agentAdapter.ts SESSION_ID_REGEX + extractSessionRef)

The two JS regexes are embedded as executable scanners over character
lists.  The first pattern is
session(?:\s+id)?\s*[:=]\s*([a-zA-Z0-9_-]+) with the i flag; the second is
a word-bounded UUID of lowercase/uppercase hex (i flag).  The JS match
method returns the leftmost match, so the scanners try each start position from
the left.  For the fixed patterns involved, greedy matching with
maximal-munch needs no further backtracking: every quantified class
(whitespace, token chars, hex) is disjoint from the literal that follows
it. -/

/-- JS \s on the ASCII range: space, tab, LF, VT, FF, CR. -/
def jsWhitespace (c : Char) : Bool :=
  c = ' ' || c = '\t' || c = '\n' || c = '\r' || c.toNat = 11 || c.toNat = 12

/-- Character class [a-zA-Z0-9_-] of the capture group of the label pattern. -/
def isTokenChar (c : Char) : Bool :=
  c.isAlpha || c.isDigit || c = '_' || c = '-'

/-- Character class [0-9a-f] under the i flag. -/
def isHexChar (c : Char) : Bool :=
  c.isDigit || ('a' ≤ c && c ≤ 'f') || ('A' ≤ c && c ≤ 'F')

/-- JS word character (for the boundary assertion of the UUID pattern). -/
def isWordChar (c : Char) : Bool :=
  c.isAlpha || c.isDigit || c = '_'

/-- Case-insensitive literal: strip lowercase pattern p from the front of
cs, returning the rest on success. -/
def stripCI : List Char → List Char → Option (List Char)
  | [], cs => some cs
  | _ :: _, [] => none
  | p :: ps, c :: cs => if c.toLower = p.toLower then stripCI ps cs else none

/-- Tail of the label pattern after the optional id word: \s*[:=]\s*
followed by the captured token [a-zA-Z0-9_-]+. -/
def matchLabelTail (cs : List Char) : Option String :=
  match cs.dropWhile jsWhitespace with
  | [] => none
  | c :: r2 =>
    if c = ':' || c = '=' then
      let tok := (r2.dropWhile jsWhitespace).takeWhile isTokenChar
      if tok.isEmpty then none else some (String.mk tok)
    else none

/-- Attempt the full label pattern at the current position: literal
session (case-insensitive), optional \s+id group (tried first, as the
greedy optional group does), then the tail. -/
def matchLabelAt (cs : List Char) : Option String :=
  match stripCI "session".toList cs with
  | none => none
  | some rest =>
    let withId : Option String :=
      match rest with
      | c :: _ =>
        if jsWhitespace c then
          match stripCI "id".toList (rest.dropWhile jsWhitespace) with
          | some r2 => matchLabelTail r2
          | none => none
        else none
      | [] => none
    match withId with
    | some s => some s
    | none => matchLabelTail rest

/-- Leftmost occurrence of the label pattern. -/
def scanLabel : List Char → Option String
  | [] => none
  | c :: cs =>
    match matchLabelAt (c :: cs) with
    | some s => some s
    | none => scanLabel cs

/-- Consume exactly n hex characters, returning them and the rest. -/
def grabHex : Nat → List Char → Option (List Char × List Char)
  | 0, cs => some ([], cs)
  | _ + 1, [] => none
  | n + 1, c :: cs =>
    if isHexChar c then (grabHex n cs).map (fun p => (c :: p.1, p.2)) else none

/-- Consume a literal dash. -/
def expectDash : List Char → Option (List Char)
  | '-' :: cs => some cs
  | _ => none

/-- Match the 8-4-4-4-12 UUID body at the current position, returning the
matched text and the remaining characters. -/
def matchUuidAt (cs : List Char) : Option (String × List Char) := do
  let (h1, r) ← grabHex 8 cs
  let r ← expectDash r
  let (h2, r) ← grabHex 4 r
  let r ← expectDash r
  let (h3, r) ← grabHex 4 r
  let r ← expectDash r
  let (h4, r) ← grabHex 4 r
  let r ← expectDash r
  let (h5, r) ← grabHex 12 r
  pure (String.mk (h1 ++ '-' :: h2 ++ '-' :: h3 ++ '-' :: h4 ++ '-' :: h5), r)

/-- Leftmost word-bounded UUID; prev is the character before the current
position (none at the start of the string). -/
def scanUuid (prev : Option Char) : List Char → Option String
  | [] => none
  | c :: cs =>
    let boundaryOk :=
      match prev with
      | none => true
      | some p => !isWordChar p
    if boundaryOk then
      match matchUuidAt (c :: cs) with
      | some (s, rest) =>
        match rest with
        | [] => some s
        | r :: _ => if isWordChar r then scanUuid (some c) cs else some s
      | none => scanUuid (some c) cs
    else scanUuid (some c) cs

/-- agentAdapter.ts extractSessionRef: try the label pattern first, then
fall back to a bare UUID; null when neither matches. -/
def extractSessionRef (buffer : String) : Option String :=
  match scanLabel buffer.toList with
  | some s => some s
  | none => scanUuid none buffer.toList

/-! ## The per-send state machine (BaseCliAgentAdapter.send)

agentAdapter.ts lines 85-155 arm an idle timer (re-armed on every data
chunk), a hard timer, and an exit listener against the child streams;
the first terminal event resolves the promise, and finish clears both
timers, detaches both data listeners and the exit listener, and is a
no-op once done is set.  The embedding is an explicit event-driven
machine: events carry timestamps, a timer event only has an effect when
its timestamp equals the currently armed deadline (a cleared or re-armed
timer never fires), and events are ignored entirely once the call is
resolved, mirroring the done guard plus listener removal. -/

deriving instance DecidableEq for Except

/-- JS String.prototype.trim over the modelled whitespace class. -/
def jsTrim (s : String) : String :=
  String.mk (((s.toList.dropWhile jsWhitespace).reverse.dropWhile jsWhitespace).reverse)

/-- Exit-code rendering in the UnexpectedExit message (code ?? "unknown"). -/
def exitCodeText : Option Int → String
  | some c => toString c
  | none => "unknown"

/-- State of one in-flight send call. buffer models runtime.outputBuffer,
before its length at entry, prevRef the sessionRef field of the runtime. -/
structure SendState where
  now : Nat
  done : Bool
  result : Option (Except String AgentOutput)
  hadOutput : Bool
  buffer : String
  before : Nat
  prevRef : Option String
  agent : AgentType
  idleMs : Nat
  idleDeadline : Option Nat
  hardDeadline : Option Nat
deriving DecidableEq

/-- Initial state of send(runtime, input, idleMs, timeoutMs): both timers
armed (armIdle and the hard setTimeout run before any event), no output
seen, before captured as the current buffer length. -/
def initSendState (rt : RunningAgent) (idleMs timeoutMs : Nat) : SendState :=
  { now := 0
    done := false
    result := none
    hadOutput := false
    buffer := rt.outputBuffer
    before := rt.outputBuffer.length
    prevRef := rt.sessionRef
    agent := rt.agent
    idleMs := idleMs
    idleDeadline := some idleMs
    hardDeadline := some timeoutMs }

/-- finish(): mark done and clear both timers (listener detachment is
modelled by sendStep ignoring events once done). -/
def finishState (s : SendState) : SendState :=
  { s with done := true, idleDeadline := none, hardDeadline := none }

/-- finish(error): reject with the error. -/
def sendFail (s : SendState) (msg : String) : SendState :=
  { finishState s with result := some (.error msg) }

/-- finish() on the success path: raw is the buffer suffix past before,
trimmed; the session ref is extracted from the full buffer with the
previous ref as fallback (the JS nullish ?? operator). -/
def sendSuccess (s : SendState) : SendState :=
  let raw := jsTrim (s.buffer.drop s.before)
  let text := if raw.length > 0 then raw else ""
  let extracted := (extractSessionRef s.buffer).orElse fun _ => s.prevRef
  { finishState s with
      result := some (.ok { text := text, sessionRef := extracted })
      prevRef := extracted }

/-- The four event sources racing during a send. -/
inductive SendEvent
  | data (t : Nat) (chunk : String)
  | idleFire (t : Nat)
  | hardFire (t : Nat)
  | procExit (t : Nat) (code : Option Int)
deriving DecidableEq

/-- One event against the send state.  onData appends the chunk, records
hadOutput and re-arms the idle timer; the idle timer firing resolves with
the suffix-since-write when output arrived and rejects with the no-output
error otherwise; the hard timer rejects with the timeout error; process
exit rejects with the unexpected-exit error.  All handlers are no-ops
once the call is resolved. -/
def sendStep (s : SendState) (e : SendEvent) : SendState :=
  if s.done then s
  else
    match e with
    | .data t chunk =>
      if s.now ≤ t then
        { s with
            now := t
            buffer := s.buffer ++ chunk
            hadOutput := true
            idleDeadline := some (t + s.idleMs) }
      else s
    | .idleFire t =>
      if s.idleDeadline = some t ∧ s.now ≤ t then
        if s.hadOutput then sendSuccess { s with now := t }
        else sendFail { s with now := t } ("No output from " ++ agentName s.agent)
      else s
    | .hardFire t =>
      if s.hardDeadline = some t ∧ s.now ≤ t then
        sendFail { s with now := t } (agentName s.agent ++ " timed out")
      else s
    | .procExit t code =>
      if s.now ≤ t then
        sendFail { s with now := t }
          (agentName s.agent ++ " process exited unexpectedly (" ++ exitCodeText code ++ ")")
      else s

/-- Run a list of events from a starting state. -/
def sendRun (s : SendState) (es : List SendEvent) : SendState :=
  es.foldl sendStep s

/-! ## stop(runtime) (agentAdapter.ts lines 157-194)

An already dead or killed process returns immediately.  Otherwise the
in-band /exit line is written, a SIGTERM timer is set for 1500 ms (and
cleared if the process exits first), and a SIGKILL-and-resolve timer is
set for 3500 ms; the promise resolves at the earlier of process exit and
the 3500 ms timer.  The model is a function of the exit time of the process
(none for a process that ignores everything). -/

def STOP_TERM_DELAY_MS : Nat := 1500

def STOP_KILL_DELAY_MS : Nat := 3500

/-- Observable outcome of one stop call. -/
structure StopOutcome where
  resolveTime : Nat
  sentExitCmd : Bool
  sentSigterm : Bool
  sentSigkill : Bool
  returnedRef : Option String
deriving DecidableEq

/-- stop(runtime), as a function of when (if ever) the child exits after
the /exit write.  An exit at exactly the SIGTERM deadline is modelled as
winning the clearTimeout race. -/
def stopModel (rt : RunningAgent) (exitTime : Option Nat) : StopOutcome :=
  if rt.killed = true ∨ rt.exitCode ≠ none then
    { resolveTime := 0, sentExitCmd := false, sentSigterm := false, sentSigkill := false
      returnedRef := rt.sessionRef }
  else
    let t := match exitTime with
      | some t => min t STOP_KILL_DELAY_MS
      | none => STOP_KILL_DELAY_MS
    { resolveTime := t
      sentExitCmd := true
      sentSigterm := decide (STOP_TERM_DELAY_MS < (exitTime.getD STOP_KILL_DELAY_MS))
      sentSigkill := decide (STOP_KILL_DELAY_MS ≤ (exitTime.getD STOP_KILL_DELAY_MS))
      returnedRef := (extractSessionRef rt.outputBuffer).orElse fun _ => rt.sessionRef }

/-! ## start(options) settle race (agentAdapter.ts lines 56-74)

After spawning, start waits on a promise resolved by the first of: the
spawn signal (success), a 1200 ms settle timer (success), a spawn error
(failure), or process exit - which the code rejects only when the exit
code is nonzero, resolving success on a zero or null code. -/

def STARTUP_SETTLE_MS : Nat := 1200

/-- First event to reach the settle promise. -/
inductive StartEvent
  | spawned
  | settleTimeout
  | errored (msg : String)
  | exited (code : Option Int)
deriving DecidableEq

/-- Outcome of the settle race as a function of its first event; buffer is
the output captured so far, command the spawned executable. -/
def settleOutcome (e : StartEvent) (buffer command : String) : Except String Unit :=
  match e with
  | .spawned => .ok ()
  | .settleTimeout => .ok ()
  | .errored msg => .error msg
  | .exited code =>
    if (code.getD 0) ≠ 0 then .error (command ++ " exited during startup: " ++ buffer)
    else .ok ()

/-! ## Persistence collaborator (the Db class, src/core)

The Db class is sqlite-backed; the Manager touches only the bindings
table (one row per user) and the agent_runtime table (one row per
user/provider, of which it reads back nothing).  DbState carries exactly
those two tables; timestamp columns (updated_at, started_at, stopped_at)
are omitted, and the agent_runtime row is flattened to its pid and
last_error columns.  Each operation below embeds the corresponding Db
method. -/

/-- The binding row Db.getBinding inserts lazily for a user with no row:
active agent hardcoded to codex, null refs. -/
def defaultBinding (u : String) : SessionBinding :=
  { userId := u, activeAgent := .codex, claudeSessionRef := none, codexSessionRef := none }

/-- Durable state behind the Db class: the bindings table keyed by user
and the pid and last_error columns of agent_runtime keyed by
user/provider. -/
structure DbState where
  bindings : String → Option SessionBinding
  pids : String → AgentType → Option Int
  lastError : String → AgentType → Option String

/-- Db.getBinding(userId): returns the binding row, inserting a row with
active agent codex and null refs when absent.  The Manager passes its
configured default provider as a second argument, but the Db method
declares only the user id and always creates the row with codex. -/
def DbState.getBinding (db : DbState) (u : String) : SessionBinding × DbState :=
  match db.bindings u with
  | some b => (b, db)
  | none =>
    let b := defaultBinding u
    (b, { db with bindings := fun v => if v = u then some b else db.bindings v })

/-- Db.setActiveAgent(userId, activeAgent): an UPDATE of the bindings
row - writes nothing when the user has no row. -/
def DbState.setActiveAgent (db : DbState) (u : String) (a : AgentType) : DbState :=
  match db.bindings u with
  | none => db
  | some b =>
    { db with
        bindings := fun v =>
          if v = u then some { b with activeAgent := a } else db.bindings v }

/-- Store a ref in the column of the given provider. -/
def setRefFor (a : AgentType) (b : SessionBinding) (ref : String) : SessionBinding :=
  match a with
  | .claude => { b with claudeSessionRef := some ref }
  | .codex => { b with codexSessionRef := some ref }

/-- Db.updateSessionRef(userId, agent, sessionRef): an UPDATE of the
claude or codex ref column - writes nothing when the user has no row. -/
def DbState.updateSessionRef (db : DbState) (u : String) (a : AgentType) (ref : String) :
    DbState :=
  match db.bindings u with
  | none => db
  | some b =>
    { db with
        bindings := fun v =>
          if v = u then some (setRefFor a b ref) else db.bindings v }

/-- Db.setRuntimePid(userId, agent, pid): an upsert of the agent_runtime
row that records the pid and resets last_error to NULL. -/
def DbState.setRuntimePid (db : DbState) (u : String) (a : AgentType) (pid : Int) : DbState :=
  { db with
      pids := fun v x => if v = u ∧ x = a then some pid else db.pids v x
      lastError := fun v x => if v = u ∧ x = a then none else db.lastError v x }

/-- Db.clearRuntimePid(userId, agent, error = null): an upsert that
clears the pid and stores the captured error in last_error. -/
def DbState.clearRuntimePid (db : DbState) (u : String) (a : AgentType)
    (err : Option String) : DbState :=
  { db with
      pids := fun v x => if v = u ∧ x = a then none else db.pids v x
      lastError := fun v x => if v = u ∧ x = a then err else db.lastError v x }

/-! ## Adapter behaviours and the Manager (src/agents/manager.ts)

At the level of the Manager an adapter is an oracle for start/send/stop; its
start supplies the process side of the RunningAgent (BaseCliAgentAdapter
fills in agent, userId and sessionRef from the call), its send maps a
runtime and input to text or an error, and its stop always resolves with
a ref or null.  Manager operations are state transformers that also emit
the trace of externally visible actions, one event per adapter call, Db
call or runtime-map mutation, in program order; an entry of the trace is
an observable instant of the run. -/

/-- Process-side data produced by a successful adapter start. -/
structure ProcSim where
  pid : Option Int
  exitCode : Option Int
  outputBuffer : String
deriving DecidableEq

/-- One provider adapter, abstracted to its observable behaviour. -/
structure AdapterBehavior where
  startResult : Option String → Bool → Except String ProcSim
  sendResult : RunningAgent → String → Nat → Nat → Except String AgentOutput
  stopResult : RunningAgent → Option String

/-- Manager construction options (manager.ts ManagerOptions) together with
the configured adapters map. -/
structure ManagerConfig where
  adapters : AgentType → Option AdapterBehavior
  failoverEnabled : Bool
  agentResponseSec : Nat
  agentIdleMs : Nat
  defaultAgent : AgentType

/-- Manager state: the Db plus the per-user runtime map. -/
structure MState where
  db : DbState
  runtimes : String → Option RunningAgent

/-- Externally visible actions of a Manager operation, in program order. -/
inductive MEvent
  | dbGetBinding (u : String)
  | dbSetActiveAgent (u : String) (a : AgentType)
  | dbUpdateSessionRef (u : String) (a : AgentType) (ref : String)
  | dbSetRuntimePid (u : String) (a : AgentType) (pid : Int)
  | dbClearRuntimePid (u : String) (a : AgentType) (err : Option String)
  | adapterStart (a : AgentType) (fresh : Bool) (ok : Bool)
  | adapterSend (a : AgentType) (input : String)
  | adapterStop (a : AgentType)
  | mapDelete (u : String)
  | mapInsert (u : String) (a : AgentType)
deriving DecidableEq

/-- Events that touch a child process (adapter start/send/stop). -/
def isProcessAction : MEvent → Bool
  | .adapterStart _ _ _ => true
  | .adapterSend _ _ => true
  | .adapterStop _ => true
  | _ => false

/-- Events that write durable state. -/
def isDbWrite : MEvent → Bool
  | .dbSetActiveAgent _ _ => true
  | .dbUpdateSessionRef _ _ _ => true
  | .dbSetRuntimePid _ _ _ => true
  | .dbClearRuntimePid _ _ _ => true
  | _ => false

/-- manager.ts requireAdapter: the disabled-provider guard.  (The source
message quotes the agent name; the quote characters are omitted here.) -/
def disabledMsg (a : AgentType) : String :=
  "Agent " ++ agentName a ++ " is disabled on this host"

/-- manager.ts requireAdapter, as a fallible lookup. -/
def requireAdapter (cfg : ManagerConfig) (a : AgentType) : Except String AdapterBehavior :=
  match cfg.adapters a with
  | some ad => .ok ad
  | none => .error (disabledMsg a)

/-- manager.ts ensureAgentEnabled: demote a disabled provider to the
configured default. -/
def ensureAgentEnabled (cfg : ManagerConfig) (a : AgentType) : AgentType :=
  if (cfg.adapters a).isSome then a else cfg.defaultAgent

/-- JS truthiness of a string | null | undefined value: null, undefined
and the empty string are falsy. -/
def optTruthy : Option String → Bool
  | some s => !s.isEmpty
  | none => false

/-- The choice of stored ref per provider in manager.ts startForBinding. -/
def sessionRefFor (a : AgentType) (b : SessionBinding) : Option String :=
  match a with
  | .claude => b.claudeSessionRef
  | .codex => b.codexSessionRef

/-- The construction of the RunningAgent in BaseCliAgentAdapter.start from a
successful spawn: agent is the type of the adapter, userId and sessionRef come
from the options, the process side from the spawn. -/
def runAdapterStart (ad : AdapterBehavior) (a : AgentType) (u : String)
    (ref : Option String) (fresh : Bool) : Except String RunningAgent :=
  match ad.startResult ref fresh with
  | .error e => .error e
  | .ok p =>
    .ok { agent := a, userId := u, pid := p.pid, exitCode := p.exitCode, killed := false
          sessionRef := ref, outputBuffer := p.outputBuffer }

/-- manager.ts stopRuntime: stop through the adapter (always resolves),
then clear the recorded pid of the user/provider of that runtime. -/
def stopRuntime (cfg : ManagerConfig) (db : DbState) (rt : RunningAgent) :
    Except String (Option String) × DbState × List MEvent :=
  match requireAdapter cfg rt.agent with
  | .error e => (.error e, db, [])
  | .ok ad =>
    (.ok (ad.stopResult rt), db.clearRuntimePid rt.userId rt.agent none,
      [.adapterStop rt.agent, .dbClearRuntimePid rt.userId rt.agent none])

/-- manager.ts startForBinding: start in resume mode with the stored ref
for the provider; on failure retry exactly once in fresh mode; record the
pid (pid ?? -1) of whichever attempt succeeded. -/
def startForBinding (cfg : ManagerConfig) (db : DbState) (u : String) (a : AgentType)
    (b : SessionBinding) : Except String RunningAgent × DbState × List MEvent :=
  match requireAdapter cfg a with
  | .error e => (.error e, db, [])
  | .ok ad =>
    match runAdapterStart ad a u (sessionRefFor a b) false with
    | .ok rt =>
      (.ok rt, db.setRuntimePid u a (rt.pid.getD (-1)),
        [.adapterStart a false true, .dbSetRuntimePid u a (rt.pid.getD (-1))])
    | .error _ =>
      match runAdapterStart ad a u none true with
      | .ok rt =>
        (.ok rt, db.setRuntimePid u a (rt.pid.getD (-1)),
          [.adapterStart a false false, .adapterStart a true true,
           .dbSetRuntimePid u a (rt.pid.getD (-1))])
      | .error e2 =>
        (.error e2, db, [.adapterStart a false false, .adapterStart a true false])

/-- Shared tail of switchAgent past any teardown of a prior runtime:
persist activeAgent = target, re-read the binding, start the new runtime
and install it in the map. -/
def installTarget (cfg : ManagerConfig) (db : DbState)
    (runtimes : String → Option RunningAgent) (u : String) (target : AgentType) :
    Except String Unit × MState × List MEvent :=
  let db4 := db.setActiveAgent u target
  let p := db4.getBinding u
  match startForBinding cfg p.2 u target p.1 with
  | (.error e, db6, evs) =>
    (.error e, { db := db6, runtimes := runtimes },
      .dbSetActiveAgent u target :: .dbGetBinding u :: evs)
  | (.ok rt, db6, evs) =>
    (.ok (), { db := db6, runtimes := fun v => if v = u then some rt else runtimes v },
      .dbSetActiveAgent u target :: .dbGetBinding u :: evs ++ [.mapInsert u target])

/-- manager.ts switchAgent: guard the target adapter, read the binding,
return immediately when the current runtime already has the target agent,
otherwise stop and remove the prior runtime (persisting its ref when
truthy) and install the target. -/
def switchAgent (cfg : ManagerConfig) (st : MState) (u : String) (target : AgentType) :
    Except String Unit × MState × List MEvent :=
  match requireAdapter cfg target with
  | .error e => (.error e, st, [])
  | .ok _ =>
    let db1 := (st.db.getBinding u).2
    match st.runtimes u with
    | some current =>
      if current.agent = target then
        (.ok (), { st with db := db1 }, [.dbGetBinding u])
      else
        match stopRuntime cfg db1 current with
        | (.error e, db2, evs) => (.error e, { st with db := db2 }, .dbGetBinding u :: evs)
        | (.ok stoppedRef, db2, evs) =>
          let p3 :=
            if optTruthy stoppedRef then
              (db2.updateSessionRef u current.agent (stoppedRef.getD ""),
               [MEvent.dbUpdateSessionRef u current.agent (stoppedRef.getD "")])
            else (db2, [])
          let runtimes2 := fun v => if v = u then none else st.runtimes v
          match installTarget cfg p3.1 runtimes2 u target with
          | (res, st2, evs4) =>
            (res, st2, .dbGetBinding u :: evs ++ p3.2 ++ [.mapDelete u] ++ evs4)
    | none =>
      match installTarget cfg db1 st.runtimes u target with
      | (res, st2, evs4) => (res, st2, .dbGetBinding u :: evs4)

/-- manager.ts ensureRuntime: reuse an existing runtime only when it has
the requested agent and its process has not exited; otherwise stop and
remove any existing entry (persisting its ref when truthy), then start
fresh via startForBinding and install the result. -/
def ensureRuntime (cfg : ManagerConfig) (st : MState) (u : String) (a : AgentType)
    (b : SessionBinding) : Except String RunningAgent × MState × List MEvent :=
  match requireAdapter cfg a with
  | .error e => (.error e, st, [])
  | .ok _ =>
    match st.runtimes u with
    | some existing =>
      if existing.agent = a ∧ existing.exitCode = none then
        (.ok existing, st, [])
      else
        match stopRuntime cfg st.db existing with
        | (.error e, db2, evs) => (.error e, { st with db := db2 }, evs)
        | (.ok stoppedRef, db2, evs) =>
          let p3 :=
            if optTruthy stoppedRef then
              (db2.updateSessionRef u existing.agent (stoppedRef.getD ""),
               [MEvent.dbUpdateSessionRef u existing.agent (stoppedRef.getD "")])
            else (db2, [])
          let runtimes2 := fun v => if v = u then none else st.runtimes v
          match startForBinding cfg p3.1 u a b with
          | (.error e, db4, evs4) =>
            (.error e, { db := db4, runtimes := runtimes2 },
              evs ++ p3.2 ++ [.mapDelete u] ++ evs4)
          | (.ok rt, db4, evs4) =>
            (.ok rt, { db := db4, runtimes := fun v => if v = u then some rt else runtimes2 v },
              evs ++ p3.2 ++ [.mapDelete u] ++ evs4 ++ [.mapInsert u a])
    | none =>
      match startForBinding cfg st.db u a b with
      | (.error e, db4, evs4) => (.error e, { st with db := db4 }, evs4)
      | (.ok rt, db4, evs4) =>
        (.ok rt, { st with db := db4, runtimes := fun v => if v = u then some rt else st.runtimes v },
          evs4 ++ [.mapInsert u a])

/-- The continuity preamble prepended to the original input on failover
(the three-element join on a blank line in manager.ts sendToActive). -/
def handoffPreamble : String :=
  "[Automatic failover from previous agent due to runtime error.]\n\nContinue from this latest user request:\n\n"

/-- manager.ts sendToActive: read the binding, demote a disabled active
provider to the default (persisting the demotion), ensure a runtime,
send; on success persist a truthy returned ref.  On failure: clear the
pid with the captured error, drop the runtime from the map, re-throw
when failover is disabled or the alternate has no adapter, otherwise
persist the alternate as active, ensure its runtime, resend the handoff
input and return the marked response. -/
def sendToActive (cfg : ManagerConfig) (st : MState) (u : String) (input : String) :
    Except String AgentOutput × MState × List MEvent :=
  let p0 := st.db.getBinding u
  let binding := p0.1
  let activeAgent := ensureAgentEnabled cfg binding.activeAgent
  let p2 :=
    if activeAgent ≠ binding.activeAgent then
      (p0.2.setActiveAgent u activeAgent,
       [MEvent.dbGetBinding u, MEvent.dbSetActiveAgent u activeAgent])
    else (p0.2, [MEvent.dbGetBinding u])
  match ensureRuntime cfg { st with db := p2.1 } u activeAgent binding with
  | (.error e, st2, evs3) => (.error e, st2, p2.2 ++ evs3)
  | (.ok runtime, st2, evs3) =>
    let sendRes : Except String AgentOutput :=
      match requireAdapter cfg runtime.agent with
      | .error e => .error e
      | .ok ad => ad.sendResult runtime input cfg.agentIdleMs (cfg.agentResponseSec * 1000)
    match sendRes with
    | .ok output =>
      if optTruthy output.sessionRef then
        (.ok output,
          { st2 with db := st2.db.updateSessionRef u runtime.agent (output.sessionRef.getD "") },
          p2.2 ++ evs3 ++ [.adapterSend runtime.agent input,
            .dbUpdateSessionRef u runtime.agent (output.sessionRef.getD "")])
      else
        (.ok output, st2, p2.2 ++ evs3 ++ [.adapterSend runtime.agent input])
    | .error err =>
      let db3 := st2.db.clearRuntimePid u runtime.agent (some err)
      let runtimes3 := fun v => if v = u then none else st2.runtimes v
      let st3 : MState := { db := db3, runtimes := runtimes3 }
      let evsC := p2.2 ++ evs3 ++ [.adapterSend runtime.agent input,
        .dbClearRuntimePid u runtime.agent (some err), .mapDelete u]
      if cfg.failoverEnabled = false then (.error err, st3, evsC)
      else
        let fallbackAgent := otherAgent runtime.agent
        match cfg.adapters fallbackAgent with
        | none => (.error err, st3, evsC)
        | some _ =>
          let db4 := db3.setActiveAgent u fallbackAgent
          let p5 := db4.getBinding u
          let evsF := evsC ++ [.dbSetActiveAgent u fallbackAgent, .dbGetBinding u]
          match ensureRuntime cfg { db := p5.2, runtimes := runtimes3 } u fallbackAgent p5.1 with
          | (.error e2, st4, evs4) => (.error e2, st4, evsF ++ evs4)
          | (.ok frt, st4, evs4) =>
            let handoffInput := handoffPreamble ++ input
            let sendRes2 : Except String AgentOutput :=
              match requireAdapter cfg frt.agent with
              | .error e2 => .error e2
              | .ok ad2 => ad2.sendResult frt handoffInput cfg.agentIdleMs (cfg.agentResponseSec * 1000)
            match sendRes2 with
            | .error e2 => (.error e2, st4, evsF ++ evs4 ++ [.adapterSend frt.agent handoffInput])
            | .ok out2 =>
              let res : AgentOutput :=
                { text := "[Failover -> " ++ agentName fallbackAgent ++ "]\n\n" ++ out2.text
                  sessionRef := out2.sessionRef }
              if optTruthy out2.sessionRef then
                (.ok res,
                  { st4 with db := st4.db.updateSessionRef u frt.agent (out2.sessionRef.getD "") },
                  evsF ++ evs4 ++ [.adapterSend frt.agent handoffInput,
                    .dbUpdateSessionRef u frt.agent (out2.sessionRef.getD "")])
              else
                (.ok res, st4, evsF ++ evs4 ++ [.adapterSend frt.agent handoffInput])

/-! ## Concrete instances (the scenarios of tests/agentManager.test.ts) -/

/-- A healthy spawned process. -/
def procA : ProcSim := { pid := some 11, exitCode := none, outputBuffer := "" }

/-- A second healthy spawned process. -/
def procB : ProcSim := { pid := some 22, exitCode := none, outputBuffer := "" }

/-- Adapter whose send always throws (the failing codex of the tests). -/
def behFailSend : AdapterBehavior :=
  { startResult := fun _ _ => .ok procA
    sendResult := fun _ _ _ _ => .error "send failure codex"
    stopResult := fun _ => some "codex-session" }

/-- Adapter that answers fallback-response (the claude of the tests). -/
def behFallback : AdapterBehavior :=
  { startResult := fun _ _ => .ok procB
    sendResult := fun _ _ _ _ => .ok { text := "fallback-response", sessionRef := some "claude-session" }
    stopResult := fun _ => some "claude-session" }

/-- Both providers configured, failover on, default codex. -/
def cfgFailover : ManagerConfig :=
  { adapters := fun a => match a with | .codex => some behFailSend | .claude => some behFallback
    failoverEnabled := true, agentResponseSec := 10, agentIdleMs := 10, defaultAgent := .codex }

/-- Same hosts with failover switched off. -/
def cfgNoFailover : ManagerConfig := { cfgFailover with failoverEnabled := false }

/-- No provider configured at all, default codex. -/
def cfgDisabled : ManagerConfig :=
  { adapters := fun _ => none
    failoverEnabled := false, agentResponseSec := 10, agentIdleMs := 10, defaultAgent := .codex }

/-- The binding row of user u1: codex active, no stored refs. -/
def bindingU1 : SessionBinding :=
  { userId := "u1", activeAgent := .codex, claudeSessionRef := none, codexSessionRef := none }

/-- Binding row of user u1 with claude active. -/
def bindingU1Claude : SessionBinding := { bindingU1 with activeAgent := .claude }

/-- Db holding exactly the row of user u1. -/
def dbU1 : DbState :=
  { bindings := fun v => if v = "u1" then some bindingU1 else none
    pids := fun _ _ => none
    lastError := fun _ _ => none }

/-- Db holding exactly the row of user u1 with claude active. -/
def dbU1Claude : DbState :=
  { dbU1 with bindings := fun v => if v = "u1" then some bindingU1Claude else none }

/-- Manager state with no live runtime. -/
def stU1 : MState := { db := dbU1, runtimes := fun _ => none }

/-- Manager state with claude active in the row and no live runtime. -/
def stU1Claude : MState := { db := dbU1Claude, runtimes := fun _ => none }

/-- A runtime for codex whose process has already exited. -/
def rtDeadCodex : RunningAgent :=
  { agent := .codex, userId := "u1", pid := some 5, exitCode := some 1, killed := false
    sessionRef := some "old-ref", outputBuffer := "bye" }

/-- Manager state holding the dead codex runtime for u1. -/
def stU1DeadCodex : MState :=
  { db := dbU1, runtimes := fun v => if v = "u1" then some rtDeadCodex else none }

/-- A live codex runtime for u1. -/
def rtLiveCodex : RunningAgent :=
  { agent := .codex, userId := "u1", pid := some 6, exitCode := none, killed := false
    sessionRef := none, outputBuffer := "" }

/-- Manager state holding the live codex runtime for u1. -/
def stU1LiveCodex : MState :=
  { db := dbU1, runtimes := fun v => if v = "u1" then some rtLiveCodex else none }









/-- A mid-send state with output already received (used to instantiate
idle-completion statements). -/
def sendStateW : SendState :=
  { now := 3, done := false, result := none, hadOutput := true, buffer := "ok: fine"
    before := 2, prevRef := some "keep", agent := .claude, idleMs := 10
    idleDeadline := some 13, hardDeadline := some 100 }

/-- Events of switching u1 from live codex to claude, up to (excluding)
the installation of the new runtime. -/
def switchTraceFront : List MEvent :=
  [.dbGetBinding "u1", .adapterStop .codex, .dbClearRuntimePid "u1" .codex none,
   .dbUpdateSessionRef "u1" .codex "codex-session", .mapDelete "u1",
   .dbSetActiveAgent "u1" .claude, .dbGetBinding "u1",
   .adapterStart .claude false true, .dbSetRuntimePid "u1" .claude 22]

/-! ## Helper lemmas -/

/-- The conditional in finish() collapses: a string is returned unchanged
whether or not it is empty. -/
theorem ite_pos_len_eq (s : String) : (if s.length > 0 then s else "") = s := by
  by_cases h : s.length > 0
  · simp [h]
  · have h0 : s.length = 0 := by omega
    have hs : s = "" := by
      cases s with
      | mk data =>
        cases data with
        | nil => rfl
        | cons c cs => simp [String.length] at h0
    simp [hs]

/-- A resolved send ignores any further event. -/
theorem sendStep_done (s : SendState) (e : SendEvent) (h : s.done = true) :
    sendStep s e = s := by
  simp [sendStep, h]

/-- A resolved send ignores any further event sequence. -/
theorem sendRun_done (s : SendState) (es : List SendEvent) (h : s.done = true) :
    sendRun s es = s := by
  induction es with
  | nil => rfl
  | cons e es ih =>
    show sendRun (sendStep s e) es = s
    rw [sendStep_done s e h]
    exact ih

/-- Resolution invariant: once done, both timers are cleared and the
result is fixed. -/
def SendDoneInv (s : SendState) : Prop :=
  s.done = true → s.idleDeadline = none ∧ s.hardDeadline = none ∧ s.result.isSome = true

/-- sendStep preserves the resolution invariant. -/
theorem sendStep_inv (s : SendState) (e : SendEvent) (h : SendDoneInv s) :
    SendDoneInv (sendStep s e) := by
  unfold SendDoneInv at h ⊢
  by_cases hd : s.done = true
  · rw [sendStep_done s e hd]; exact h
  · have hd' : s.done = false := by simpa using hd
    cases e with
    | data t chunk =>
      simp only [sendStep, hd', Bool.false_eq_true, if_false]
      split
      · intro hh; simp [hd'] at hh
      · exact h
    | idleFire t =>
      simp only [sendStep, hd', Bool.false_eq_true, if_false]
      split
      · split <;> intro _ <;> simp [sendSuccess, sendFail, finishState]
      · exact h
    | hardFire t =>
      simp only [sendStep, hd', Bool.false_eq_true, if_false]
      split
      · intro _; simp [sendFail, finishState]
      · exact h
    | procExit t code =>
      simp only [sendStep, hd', Bool.false_eq_true, if_false]
      split
      · intro _; simp [sendFail, finishState]
      · exact h

/-- sendRun preserves the resolution invariant. -/
theorem sendRun_inv (s : SendState) (es : List SendEvent) (h : SendDoneInv s) :
    SendDoneInv (sendRun s es) := by
  induction es generalizing s with
  | nil => exact h
  | cons e es ih => exact ih (sendStep s e) (sendStep_inv s e h)

/-- Splitting a list of the form front ++ [x] at an element that does not
occur in front forces the split point to be the end. -/
theorem append_singleton_split {α : Type} {front es₁ es₂ : List α} {x y : α}
    (h : front ++ [x] = es₁ ++ y :: es₂) (hy : y ∉ front) : es₁ = front := by
  induction front generalizing es₁ with
  | nil =>
    cases es₁ with
    | nil => rfl
    | cons a l =>
      simp only [List.nil_append, List.cons_append] at h
      have := congrArg List.length h
      simp at this
  | cons a front ih =>
    cases es₁ with
    | nil =>
      simp only [List.cons_append, List.nil_append] at h
      have hya : y = a := (List.cons.injEq _ _ _ _ ▸ h).1.symm
      exact absurd (by simp [hya]) hy
    | cons bhead l =>
      simp only [List.cons_append] at h
      have h1 := (List.cons.injEq _ _ _ _ ▸ h).1
      have h2 := (List.cons.injEq _ _ _ _ ▸ h).2
      have hy' : y ∉ front := fun hmem => hy (List.mem_cons_of_mem _ hmem)
      rw [h1]
      exact congrArg (bhead :: ·) (ih h2 hy')

/-! ## Claims -/

/-- Claim C7: stop(runtime) always resolves within the sum of its two
bounded grace windows (1500 ms to the terminate signal, 2000 ms more to
the kill signal), even against a process that ignores all signals: it
sends the in-band exit instruction, sends SIGTERM after the first window
if the process is still alive, sends SIGKILL after the second window and
resolves; it never blocks indefinitely. -/
theorem claim_stop_bounded (rt : RunningAgent) (exitTime : Option Nat) :
    (stopModel rt exitTime).resolveTime ≤
      STOP_TERM_DELAY_MS + (STOP_KILL_DELAY_MS - STOP_TERM_DELAY_MS) ∧
    (exitTime = none → rt.killed = false → rt.exitCode = none →
      (stopModel rt exitTime).sentExitCmd = true ∧
      (stopModel rt exitTime).sentSigterm = true ∧
      (stopModel rt exitTime).sentSigkill = true ∧
      (stopModel rt exitTime).resolveTime = STOP_KILL_DELAY_MS) := by
  constructor
  · unfold stopModel STOP_TERM_DELAY_MS STOP_KILL_DELAY_MS
    split
    · simp
    · cases exitTime with
      | none => simp
      | some t => simp [Nat.min_le_right]
  · intro hex hk hc
    simp [stopModel, hex, hk, hc, STOP_TERM_DELAY_MS, STOP_KILL_DELAY_MS]

/-- Claim C7 witness: a live runtime whose process never exits. -/
theorem claim_stop_bounded_witness :
    (stopModel rtLiveCodex none).resolveTime ≤
      STOP_TERM_DELAY_MS + (STOP_KILL_DELAY_MS - STOP_TERM_DELAY_MS) ∧
    (stopModel rtLiveCodex none).sentSigterm = true ∧
    (stopModel rtLiveCodex none).sentSigkill = true := by
  have h := claim_stop_bounded rtLiveCodex none
  have h2 := h.2 rfl rfl rfl
  exact ⟨h.1, h2.2.1, h2.2.2.1⟩

/-- Claim C9 counterexample: the claim says early process exit before
readiness is a failure, but an exit with code 0 during the settle wait
resolves start as success. -/
theorem claim_start_settle_counterexample :
    settleOutcome (.exited (some 0)) "partial output" "claude" = .ok () ∧
    settleOutcome (.exited none) "partial output" "claude" = .ok () := ⟨rfl, rfl⟩

/-- Claim C9 as amended: start(options) resolves on the first settle
event - the explicit spawn signal and the short settle timeout resolve as
success; early process exit is a failure carrying the captured output as
diagnostic exactly when the exit code is nonzero, and is treated as
success on a zero or absent code. -/
theorem claim_start_settle_amended (buffer command : String) (code : Option Int) :
    settleOutcome .spawned buffer command = .ok () ∧
    settleOutcome .settleTimeout buffer command = .ok () ∧
    (code.getD 0 ≠ 0 →
      settleOutcome (.exited code) buffer command =
        .error (command ++ " exited during startup: " ++ buffer)) ∧
    (code.getD 0 = 0 → settleOutcome (.exited code) buffer command = .ok ()) := by
  refine ⟨rfl, rfl, ?_, ?_⟩ <;> intro h <;> simp [settleOutcome, h]

/-- Claim C9 amended witness: a nonzero-code early exit fails with the
captured output in the message. -/
theorem claim_start_settle_amended_witness :
    ((some (1 : Int)).getD 0 ≠ 0) ∧
    settleOutcome (.exited (some 1)) "boom" "codex" =
      .error ("codex exited during startup: boom") :=
  ⟨by decide, (claim_start_settle_amended "boom" "codex" (some 1)).2.2.1 (by decide)⟩

/-- Claim C8: after a successful send the session ref is extracted from
the full transcript by prioritized heuristics - an explicit Session ID
label yields its token (label tried before the UUID fallback), a bare
UUID-shaped token is the fallback, and a transcript matching neither
leaves the previously stored ref unchanged. -/
theorem claim_session_ref_extraction :
    extractSessionRef "Session ID: 9f3e12ab" = some "9f3e12ab" ∧
    extractSessionRef "run done\n123e4567-e89b-12d3-a456-426614174000\nbye" =
      some "123e4567-e89b-12d3-a456-426614174000" ∧
    extractSessionRef "123e4567-e89b-12d3-a456-426614174000 and session: tok-1" =
      some "tok-1" ∧
    extractSessionRef "hello world, nothing here." = none ∧
    (∀ s : SendState, extractSessionRef s.buffer = none →
      (sendSuccess s).prevRef = s.prevRef ∧
      (sendSuccess s).result =
        some (.ok { text := jsTrim (s.buffer.drop s.before), sessionRef := s.prevRef })) := by
  refine ⟨by decide, by decide, by decide, by decide, ?_⟩
  intro s h
  constructor
  · simp [sendSuccess, finishState, h, Option.orElse]
  · simp [sendSuccess, finishState, h, Option.orElse, ite_pos_len_eq]

/-- Claim C8 witness: a transcript with neither pattern keeps the stored
ref. -/
theorem claim_session_ref_extraction_witness :
    extractSessionRef sendStateW.buffer = none ∧
    (sendSuccess sendStateW).prevRef = sendStateW.prevRef :=
  ⟨by decide, (claim_session_ref_extraction.2.2.2.2 sendStateW (by decide)).1⟩

/-- Claim C2: exactly one outcome resolves a send call - the first event
producing a terminal state fixes the result, both timers are cancelled
and all listeners detached on first resolution, so no later data chunk,
timer fire or exit event changes the state or the outcome. -/
theorem claim_send_exactly_once (rt : RunningAgent) (idleMs timeoutMs : Nat)
    (es extra : List SendEvent)
    (h : (sendRun (initSendState rt idleMs timeoutMs) es).done = true) :
    sendRun (initSendState rt idleMs timeoutMs) (es ++ extra) =
      sendRun (initSendState rt idleMs timeoutMs) es ∧
    (sendRun (initSendState rt idleMs timeoutMs) es).idleDeadline = none ∧
    (sendRun (initSendState rt idleMs timeoutMs) es).hardDeadline = none ∧
    (sendRun (initSendState rt idleMs timeoutMs) es).result.isSome = true := by
  have hinv : SendDoneInv (sendRun (initSendState rt idleMs timeoutMs) es) :=
    sendRun_inv _ es (by intro hh; simp [initSendState] at hh)
  have hres := hinv h
  refine ⟨?_, hres.1, hres.2.1, hres.2.2⟩
  unfold sendRun
  rw [List.foldl_append]
  exact sendRun_done _ extra h

/-- Claim C2 witness: a hard-timeout resolution is final against a later
data chunk. -/
theorem claim_send_exactly_once_witness :
    (sendRun (initSendState rtLiveCodex 10 0) [SendEvent.hardFire 0]).done = true ∧
    sendRun (initSendState rtLiveCodex 10 0) ([SendEvent.hardFire 0] ++ [SendEvent.data 1 "late"]) =
      sendRun (initSendState rtLiveCodex 10 0) [SendEvent.hardFire 0] :=
  ⟨by decide,
   (claim_send_exactly_once rtLiveCodex 10 0 [SendEvent.hardFire 0] [SendEvent.data 1 "late"]
     (by decide)).1⟩

/-- Claim C3: when the idle timer fires with output received since the
write the call resolves successfully with the trimmed buffer suffix since
the write; with zero output it fails with the no-output error; and every
received chunk re-arms the idle timer. -/
theorem claim_idle_completion (s : SendState) (t : Nat) (c : String)
    (hdone : s.done = false) (hidle : s.idleDeadline = some t) (hnow : s.now ≤ t) :
    (s.hadOutput = true →
      (sendStep s (.idleFire t)).result =
        some (.ok { text := jsTrim (s.buffer.drop s.before)
                    sessionRef := (extractSessionRef s.buffer).orElse fun _ => s.prevRef }) ∧
      (sendStep s (.idleFire t)).done = true) ∧
    (s.hadOutput = false →
      (sendStep s (.idleFire t)).result =
        some (.error ("No output from " ++ agentName s.agent)) ∧
      (sendStep s (.idleFire t)).done = true) ∧
    (sendStep s (.data t c)).idleDeadline = some (t + s.idleMs) := by
  refine ⟨?_, ?_, ?_⟩
  · intro hout
    constructor
    · simp [sendStep, hdone, hidle, hnow, hout, sendSuccess, finishState, ite_pos_len_eq]
    · simp [sendStep, hdone, hidle, hnow, hout, sendSuccess, finishState]
  · intro hout
    constructor
    · simp [sendStep, hdone, hidle, hnow, hout, sendFail, finishState]
    · simp [sendStep, hdone, hidle, hnow, hout, sendFail, finishState]
  · simp [sendStep, hdone, hnow]

/-- Claim C3 witness: the idle timer fires at its deadline on a state
with received output. -/
theorem claim_idle_completion_witness :
    sendStateW.hadOutput = true ∧
    (sendStep sendStateW (.idleFire 13)).result =
      some (.ok { text := jsTrim (sendStateW.buffer.drop sendStateW.before)
                  sessionRef := (extractSessionRef sendStateW.buffer).orElse
                    fun _ => sendStateW.prevRef }) :=
  ⟨rfl, ((claim_idle_completion sendStateW 13 "x" rfl rfl (by decide)).1 rfl).1⟩

/-- Claim C10 (implicit): when the runtime map already holds an entry for
the user whose agent equals the requested target, switchAgent returns
immediately - no adapter stop or start, no persistence write, the state
entirely unchanged - regardless of the exit status of the existing runtime
(rt here is arbitrary, so aliveness is not checked). -/
theorem claim_switch_noop_frame (cfg : ManagerConfig) (st : MState) (u : String)
    (target : AgentType) (rt : RunningAgent) (b : SessionBinding)
    (hrt : st.runtimes u = some rt) (hagent : rt.agent = target)
    (had : (cfg.adapters target).isSome = true) (hb : st.db.bindings u = some b) :
    switchAgent cfg st u target = (.ok (), st, [.dbGetBinding u]) := by
  unfold switchAgent requireAdapter
  match hcase : cfg.adapters target with
  | none => rw [hcase] at had; simp at had
  | some ad => simp [hcase, DbState.getBinding, hb, hrt, hagent]

/-- Claim C10 witness: a runtime whose process has exited (exitCode 1) is
still treated as the no-op case. -/
theorem claim_switch_noop_frame_witness :
    switchAgent cfgFailover stU1DeadCodex "u1" .codex =
      (.ok (), stU1DeadCodex, [.dbGetBinding "u1"]) ∧
    rtDeadCodex.exitCode = some 1 :=
  ⟨claim_switch_noop_frame cfgFailover stU1DeadCodex "u1" .codex rtDeadCodex bindingU1
     rfl rfl rfl rfl, rfl⟩

/-- Claim C6 counterexample: with every adapter disabled, default codex
and stored active provider claude, sendToActive does throw the disabled
error, but only after the demotion persistence write setActiveAgent(u,
codex) - the trace contains the write, and the active provider stored in
the binding has changed before the rejection.  The claim as stated says the
disabled error is thrown before any persistence write is attempted. -/
theorem claim_disabled_guard_counterexample :
    (sendToActive cfgDisabled stU1Claude "u1" "hi").1 = .error (disabledMsg .codex) ∧
    (sendToActive cfgDisabled stU1Claude "u1" "hi").2.2 =
      [.dbGetBinding "u1", .dbSetActiveAgent "u1" .codex] ∧
    isDbWrite (.dbSetActiveAgent "u1" .codex) = true ∧
    ((sendToActive cfgDisabled stU1Claude "u1" "hi").2.1).db.bindings "u1" =
      some { userId := "u1", activeAgent := .codex, claudeSessionRef := none
             codexSessionRef := none } ∧
    stU1Claude.db.bindings "u1" = some bindingU1Claude ∧
    bindingU1Claude.activeAgent = .claude :=
  ⟨rfl, rfl, rfl, rfl, rfl, rfl⟩

/-- Claim C6 as amended: switchAgent to a disabled provider throws the
disabled error before any process or persistence action (state untouched,
empty trace); sendToActive whose resolved provider is disabled throws the
disabled error before any process action and leaves the runtime map
unchanged, but may first perform the demotion persistence write of the
default provider into the binding. -/
theorem claim_disabled_guard_amended :
    (∀ (cfg : ManagerConfig) (st : MState) (u : String) (target : AgentType),
      cfg.adapters target = none →
      switchAgent cfg st u target = (.error (disabledMsg target), st, [])) ∧
    (∀ (cfg : ManagerConfig) (st : MState) (u input : String) (b : SessionBinding),
      st.db.bindings u = some b →
      cfg.adapters (ensureAgentEnabled cfg b.activeAgent) = none →
      (sendToActive cfg st u input).1 =
        .error (disabledMsg (ensureAgentEnabled cfg b.activeAgent)) ∧
      ((sendToActive cfg st u input).2.2).all (fun e => !isProcessAction e) = true ∧
      ((sendToActive cfg st u input).2.1).runtimes = st.runtimes ∧
      ∃ b', ((sendToActive cfg st u input).2.1).db.bindings u = some b' ∧
        b'.activeAgent = cfg.defaultAgent) := by
  constructor
  · intro cfg st u target h
    unfold switchAgent requireAdapter
    rw [h]
  · intro cfg st u input b hb hdis
    have hba : (cfg.adapters b.activeAgent).isSome = false := by
      by_cases hx : (cfg.adapters b.activeAgent).isSome = true
      · unfold ensureAgentEnabled at hdis
        rw [if_pos hx] at hdis
        rw [hdis] at hx
        simp at hx
      · simpa using hx
    have hres : ensureAgentEnabled cfg b.activeAgent = cfg.defaultAgent := by
      unfold ensureAgentEnabled
      rw [if_neg (by simp [hba])]
    rw [hres] at hdis
    simp only [sendToActive, DbState.getBinding, hb, hres, ensureRuntime, requireAdapter, hdis]
    split_ifs with hne
    · refine ⟨trivial, by simp [isProcessAction], trivial, ?_⟩
      refine ⟨{ b with activeAgent := cfg.defaultAgent }, ?_, rfl⟩
      simp [DbState.setActiveAgent, hb]
    · refine ⟨trivial, by simp [isProcessAction], trivial, ⟨b, hb, ?_⟩⟩
      push_neg at hne
      rw [hne]

/-- Claim C6 amended witness: both parts at the all-disabled host. -/
theorem claim_disabled_guard_amended_witness :
    switchAgent cfgDisabled stU1 "u1" .claude = (.error (disabledMsg .claude), stU1, []) ∧
    (sendToActive cfgDisabled stU1Claude "u1" "hi").1 =
      .error (disabledMsg (ensureAgentEnabled cfgDisabled bindingU1Claude.activeAgent)) :=
  ⟨claim_disabled_guard_amended.1 cfgDisabled stU1 "u1" .claude rfl,
   (claim_disabled_guard_amended.2 cfgDisabled stU1Claude "u1" "hi" bindingU1Claude rfl rfl).1⟩

/-- Claim C5: when the send of the active provider fails with failover
disabled (or no adapter configured for the alternate), sendToActive
rejects with the original error; before rejecting it clears the recorded
pid for that user/provider recording the captured error, drops the
runtime from the map, and leaves the persisted binding (in particular its
active provider) unchanged. -/
theorem claim_no_failover_rejects (cfg : ManagerConfig) (st : MState) (u input errA : String)
    (b : SessionBinding) (A : AdapterBehavior) (pA : ProcSim)
    (hb : st.db.bindings u = some b)
    (hA : cfg.adapters b.activeAgent = some A)
    (hAstart : ∀ ref fresh, A.startResult ref fresh = .ok pA)
    (hAsend : ∀ rt inp i t, A.sendResult rt inp i t = .error errA)
    (hno : cfg.failoverEnabled = false ∨ cfg.adapters (otherAgent b.activeAgent) = none)
    (hrt : st.runtimes u = none ∨
      ∃ ex, st.runtimes u = some ex ∧ ex.agent = b.activeAgent ∧ ex.exitCode = none) :
    (sendToActive cfg st u input).1 = .error errA ∧
    ((sendToActive cfg st u input).2.1).db.pids u b.activeAgent = none ∧
    ((sendToActive cfg st u input).2.1).db.lastError u b.activeAgent = some errA ∧
    ((sendToActive cfg st u input).2.1).runtimes u = none ∧
    ((sendToActive cfg st u input).2.1).db.bindings u = some b := by
  have hen : ensureAgentEnabled cfg b.activeAgent = b.activeAgent := by
    unfold ensureAgentEnabled; rw [hA]; simp
  rcases hrt with hrt | ⟨ex, hrt, hexa, hexc⟩
  · rcases hno with hno | hno
    · simp [sendToActive, ensureRuntime, startForBinding, requireAdapter, runAdapterStart,
        DbState.getBinding, DbState.setRuntimePid, DbState.clearRuntimePid, hb, hen, hA,
        hrt, hAstart, hAsend, hno]
    · by_cases hf : cfg.failoverEnabled = false
      · simp [sendToActive, ensureRuntime, startForBinding, requireAdapter, runAdapterStart,
          DbState.getBinding, DbState.setRuntimePid, DbState.clearRuntimePid, hb, hen, hA,
          hrt, hAstart, hAsend, hf]
      · simp [sendToActive, ensureRuntime, startForBinding, requireAdapter, runAdapterStart,
          DbState.getBinding, DbState.setRuntimePid, DbState.clearRuntimePid, hb, hen, hA,
          hrt, hAstart, hAsend, hno, hf]
  · rcases hno with hno | hno
    · simp [sendToActive, ensureRuntime, requireAdapter,
        DbState.getBinding, DbState.clearRuntimePid, hb, hen, hA,
        hrt, hexa, hexc, hAsend, hno]
    · by_cases hf : cfg.failoverEnabled = false
      · simp [sendToActive, ensureRuntime, requireAdapter,
          DbState.getBinding, DbState.clearRuntimePid, hb, hen, hA,
          hrt, hexa, hexc, hAsend, hf]
      · simp [sendToActive, ensureRuntime, requireAdapter,
          DbState.getBinding, DbState.clearRuntimePid, hb, hen, hA,
          hrt, hexa, hexc, hAsend, hno, hf]

/-- Claim C5 witness: the no-failover scenario of the test suite. -/
theorem claim_no_failover_rejects_witness :
    (sendToActive cfgNoFailover stU1 "u1" "hello").1 = .error "send failure codex" ∧
    ((sendToActive cfgNoFailover stU1 "u1" "hello").2.1).db.lastError "u1" .codex =
      some "send failure codex" ∧
    ((sendToActive cfgNoFailover stU1 "u1" "hello").2.1).runtimes "u1" = none ∧
    ((sendToActive cfgNoFailover stU1 "u1" "hello").2.1).db.bindings "u1" = some bindingU1 := by
  have h := claim_no_failover_rejects cfgNoFailover stU1 "u1" "hello" "send failure codex"
    bindingU1 behFailSend procA rfl rfl (fun _ _ => rfl) (fun _ _ _ _ => rfl)
    (Or.inl rfl) (Or.inl rfl)
  exact ⟨h.1, h.2.2.1, h.2.2.2.1, h.2.2.2.2⟩

/-- Storing a session ref never changes the bound active provider. -/
theorem setRefFor_activeAgent (a : AgentType) (b : SessionBinding) (ref : String) :
    (setRefFor a b ref).activeAgent = b.activeAgent := by
  cases a <;> rfl

/-- Claim C1: when the send of the active provider fails with failover enabled
and the alternate provider configured, sendToActive persists the
alternate as active, resends the original input with the continuity
preamble prepended (the resend event appears in the trace), and returns
the response text of the alternate prefixed with the failover marker naming
the alternate; afterwards the active provider of the persisted binding equals
the alternate. -/
theorem claim_failover_success (cfg : ManagerConfig) (st : MState) (u input errA : String)
    (b : SessionBinding) (A B : AdapterBehavior) (pA pB : ProcSim) (out : AgentOutput)
    (hb : st.db.bindings u = some b)
    (hA : cfg.adapters b.activeAgent = some A)
    (hB : cfg.adapters (otherAgent b.activeAgent) = some B)
    (hfo : cfg.failoverEnabled = true)
    (hAstart : ∀ ref fresh, A.startResult ref fresh = .ok pA)
    (hAsend : ∀ rt inp i t, A.sendResult rt inp i t = .error errA)
    (hBstart : ∀ ref fresh, B.startResult ref fresh = .ok pB)
    (hBsend : ∀ rt inp i t, B.sendResult rt inp i t = .ok out)
    (hrt : st.runtimes u = none ∨
      ∃ ex, st.runtimes u = some ex ∧ ex.agent = b.activeAgent ∧ ex.exitCode = none) :
    (sendToActive cfg st u input).1 =
      .ok { text := "[Failover -> " ++ agentName (otherAgent b.activeAgent) ++ "]\n\n" ++ out.text
            sessionRef := out.sessionRef } ∧
    (∃ b2, ((sendToActive cfg st u input).2.1).db.bindings u = some b2 ∧
      b2.activeAgent = otherAgent b.activeAgent) ∧
    MEvent.adapterSend (otherAgent b.activeAgent) (handoffPreamble ++ input) ∈
      (sendToActive cfg st u input).2.2 := by
  have hen : ensureAgentEnabled cfg b.activeAgent = b.activeAgent := by
    unfold ensureAgentEnabled; rw [hA]; simp
  rcases hrt with hrt | ⟨ex, hrt, hexa, hexc⟩ <;>
    by_cases htr : optTruthy out.sessionRef = true
  · refine ⟨?_, ?_, ?_⟩ <;>
      simp [sendToActive, ensureRuntime, startForBinding, requireAdapter, runAdapterStart,
        DbState.getBinding, DbState.setRuntimePid, DbState.clearRuntimePid,
        DbState.setActiveAgent, DbState.updateSessionRef, setRefFor_activeAgent,
        hb, hen, hA, hB, hfo, hAstart, hAsend, hBstart, hBsend, hrt, htr]
  · have htr' : optTruthy out.sessionRef = false := by simpa using htr
    refine ⟨?_, ?_, ?_⟩ <;>
      simp [sendToActive, ensureRuntime, startForBinding, requireAdapter, runAdapterStart,
        DbState.getBinding, DbState.setRuntimePid, DbState.clearRuntimePid,
        DbState.setActiveAgent, DbState.updateSessionRef, setRefFor_activeAgent,
        hb, hen, hA, hB, hfo, hAstart, hAsend, hBstart, hBsend, hrt, htr']
  · refine ⟨?_, ?_, ?_⟩ <;>
      simp [sendToActive, ensureRuntime, startForBinding, requireAdapter, runAdapterStart,
        DbState.getBinding, DbState.setRuntimePid, DbState.clearRuntimePid,
        DbState.setActiveAgent, DbState.updateSessionRef, setRefFor_activeAgent,
        hb, hen, hA, hB, hfo, hAstart, hAsend, hBstart, hBsend, hrt, hexa, hexc, htr]
  · have htr' : optTruthy out.sessionRef = false := by simpa using htr
    refine ⟨?_, ?_, ?_⟩ <;>
      simp [sendToActive, ensureRuntime, startForBinding, requireAdapter, runAdapterStart,
        DbState.getBinding, DbState.setRuntimePid, DbState.clearRuntimePid,
        DbState.setActiveAgent, DbState.updateSessionRef, setRefFor_activeAgent,
        hb, hen, hA, hB, hfo, hAstart, hAsend, hBstart, hBsend, hrt, hexa, hexc, htr']

/-- Claim C1 witness: the failover scenario of the test suite. -/
theorem claim_failover_success_witness :
    (sendToActive cfgFailover stU1 "u1" "hello").1 =
      .ok { text := "[Failover -> claude]\n\nfallback-response"
            sessionRef := some "claude-session" } ∧
    (∃ b2, ((sendToActive cfgFailover stU1 "u1" "hello").2.1).db.bindings "u1" = some b2 ∧
      b2.activeAgent = AgentType.claude) ∧
    MEvent.adapterSend .claude (handoffPreamble ++ "hello") ∈
      (sendToActive cfgFailover stU1 "u1" "hello").2.2 :=
  claim_failover_success cfgFailover stU1 "u1" "hello" "send failure codex" bindingU1
    behFailSend behFallback procA procB
    { text := "fallback-response", sessionRef := some "claude-session" }
    rfl rfl rfl rfl (fun _ _ => rfl) (fun _ _ _ _ => rfl) (fun _ _ => rfl) (fun _ _ _ _ => rfl)
    (Or.inl rfl)

/-- Claim C4: at most one RunningAgent per user at any observable
instant.  Structurally the Manager keys runtimes by user id, so a user
has at most one entry; and each operation that installs a new runtime
(switchAgent, and ensureRuntime as used by sendToActive) emits, before
any installation event for that user, both the adapter stop of the provider
of the prior runtime and the removal of the prior map entry. -/
theorem claim_single_runtime_per_user (cfg : ManagerConfig) (st : MState) (u : String)
    (target : AgentType) (old : RunningAgent) (A B : AdapterBehavior) (pB : ProcSim)
    (b : SessionBinding) :
    (∀ (st0 : MState) (v : String) (r1 r2 : RunningAgent),
      st0.runtimes v = some r1 → st0.runtimes v = some r2 → r1 = r2) ∧
    (st.runtimes u = some old → old.agent ≠ target →
      cfg.adapters old.agent = some A → cfg.adapters target = some B →
      (∀ ref fresh, B.startResult ref fresh = .ok pB) →
      ∀ es₁ es₂ a, (switchAgent cfg st u target).2.2 = es₁ ++ .mapInsert u a :: es₂ →
        MEvent.adapterStop old.agent ∈ es₁ ∧ MEvent.mapDelete u ∈ es₁) ∧
    (st.runtimes u = some old → ¬(old.agent = target ∧ old.exitCode = none) →
      cfg.adapters old.agent = some A → cfg.adapters target = some B →
      (∀ ref fresh, B.startResult ref fresh = .ok pB) →
      ∀ es₁ es₂ a, (ensureRuntime cfg st u target b).2.2 = es₁ ++ .mapInsert u a :: es₂ →
        MEvent.adapterStop old.agent ∈ es₁ ∧ MEvent.mapDelete u ∈ es₁) := by
  refine ⟨?_, ?_, ?_⟩
  · intro st0 v r1 r2 h1 h2
    rw [h1] at h2
    exact Option.some.inj h2
  · intro hrt hne hOldA hTB hBstart es₁ es₂ a hsplit
    by_cases htr : optTruthy (A.stopResult old) = true
    · have hT : (switchAgent cfg st u target).2.2 =
          [MEvent.dbGetBinding u, .adapterStop old.agent,
           .dbClearRuntimePid old.userId old.agent none,
           .dbUpdateSessionRef u old.agent ((A.stopResult old).getD ""), .mapDelete u,
           .dbSetActiveAgent u target, .dbGetBinding u, .adapterStart target false true,
           .dbSetRuntimePid u target (pB.pid.getD (-1))] ++ [.mapInsert u target] := by
        simp [switchAgent, stopRuntime, installTarget, startForBinding, requireAdapter,
          runAdapterStart, hrt, hne, hOldA, hTB, hBstart, htr]
      rw [hT] at hsplit
      have hes : es₁ = _ := append_singleton_split hsplit (by simp)
      subst hes
      exact ⟨by simp, by simp⟩
    · have htr' : optTruthy (A.stopResult old) = false := by simpa using htr
      have hT : (switchAgent cfg st u target).2.2 =
          [MEvent.dbGetBinding u, .adapterStop old.agent,
           .dbClearRuntimePid old.userId old.agent none, .mapDelete u,
           .dbSetActiveAgent u target, .dbGetBinding u, .adapterStart target false true,
           .dbSetRuntimePid u target (pB.pid.getD (-1))] ++ [.mapInsert u target] := by
        simp [switchAgent, stopRuntime, installTarget, startForBinding, requireAdapter,
          runAdapterStart, hrt, hne, hOldA, hTB, hBstart, htr']
      rw [hT] at hsplit
      have hes : es₁ = _ := append_singleton_split hsplit (by simp)
      subst hes
      exact ⟨by simp, by simp⟩
  · intro hrt hne hOldA hTB hBstart es₁ es₂ a hsplit
    by_cases htr : optTruthy (A.stopResult old) = true
    · have hT : (ensureRuntime cfg st u target b).2.2 =
          [MEvent.adapterStop old.agent, .dbClearRuntimePid old.userId old.agent none,
           .dbUpdateSessionRef u old.agent ((A.stopResult old).getD ""), .mapDelete u,
           .adapterStart target false true,
           .dbSetRuntimePid u target (pB.pid.getD (-1))] ++ [.mapInsert u target] := by
        simp [ensureRuntime, stopRuntime, startForBinding, requireAdapter,
          runAdapterStart, hrt, hne, hOldA, hTB, hBstart, htr]
      rw [hT] at hsplit
      have hes : es₁ = _ := append_singleton_split hsplit (by simp)
      subst hes
      exact ⟨by simp, by simp⟩
    · have htr' : optTruthy (A.stopResult old) = false := by simpa using htr
      have hT : (ensureRuntime cfg st u target b).2.2 =
          [MEvent.adapterStop old.agent, .dbClearRuntimePid old.userId old.agent none,
           .mapDelete u, .adapterStart target false true,
           .dbSetRuntimePid u target (pB.pid.getD (-1))] ++ [.mapInsert u target] := by
        simp [ensureRuntime, stopRuntime, startForBinding, requireAdapter,
          runAdapterStart, hrt, hne, hOldA, hTB, hBstart, htr']
      rw [hT] at hsplit
      have hes : es₁ = _ := append_singleton_split hsplit (by simp)
      subst hes
      exact ⟨by simp, by simp⟩

/-- Claim C4 witness: switching u1 from live codex to claude stops and
removes codex before the only installation event. -/
theorem claim_single_runtime_per_user_witness :
    MEvent.adapterStop .codex ∈ switchTraceFront ∧
    MEvent.mapDelete "u1" ∈ switchTraceFront :=
  (claim_single_runtime_per_user cfgFailover stU1LiveCodex "u1" .claude rtLiveCodex
      behFailSend behFallback procB bindingU1).2.1
    rfl (by decide) rfl rfl (fun _ _ => rfl) switchTraceFront [] .claude (by rfl)
